import Mathlib

/-!
Shallow embedding of the tile-map synchronization engine of `src/map.rs`
(bevy_tiled). Floating point values are modelled as rationals, machine
integers (`u32`) as naturals, opaque asset handles as naturals, and Rust
panics (`unwrap`, `panic!`) as the error branch of `Except String`.
-/

namespace BevyTiled

/-- 2D float vector (`glam::Vec2`), modelled over the rationals. -/
structure Vec2 where
  x : ℚ
  y : ℚ
deriving DecidableEq

/-- 3D float vector (`glam::Vec3`), modelled over the rationals. -/
structure Vec3 where
  x : ℚ
  y : ℚ
  z : ℚ
deriving DecidableEq

/-- 4D float vector (`bevy Vec4`), modelled over the rationals. -/
structure Vec4 where
  x : ℚ
  y : ℚ
  z : ℚ
  w : ℚ
deriving DecidableEq

/-- `Tile` struct of `map.rs`. -/
structure Tile where
  tile_id : Nat
  pos : Vec2
  vertex : Vec4
  uv : Vec4
deriving DecidableEq

/-- `Chunk` struct of `map.rs`. -/
structure Chunk where
  position : Vec2
  tiles : List (List Tile)
deriving DecidableEq

/-- `TilesetLayer` struct of `map.rs`. -/
structure TilesetLayer where
  tile_size : Vec2
  chunks : List (List Chunk)
  tileset_guid : Nat
deriving DecidableEq

/-- `Layer` struct of `map.rs`. -/
structure Layer where
  tileset_layers : List TilesetLayer
deriving DecidableEq

/-- `tiled::Orientation` (the orientation field of a parsed Tiled map). -/
inductive Orientation where
  | orthogonal
  | isometric
  | staggered
  | hexagonal
deriving DecidableEq

/-- A tileset of the parsed `tiled::Map`: its `first_gid` key and the
source paths of its images (`tileset.images`). -/
structure Tileset where
  first_gid : Nat
  images : List String
deriving DecidableEq

/-- The fields of the external `tiled::Map` that `map.rs` reads:
orientation, grid dimensions, tile dimensions and the tileset list. -/
structure TiledMap where
  orientation : Orientation
  width : Nat
  height : Nat
  tile_width : Nat
  tile_height : Nat
  tilesets : List Tileset
deriving DecidableEq

/-- `Map` asset struct of `map.rs`. A pending geometry batch
`(u32, u32, Mesh)` is modelled as `(layer_id, tileset_guid, geometry)`
with the opaque raw geometry represented by a natural number. -/
structure Map where
  map : TiledMap
  meshes : List (Nat × Nat × Nat)
  layers : List Layer
  tile_size : Vec2
  image_folder : String
deriving DecidableEq

/-- Rust `f32::round`: round half away from zero, modelled on ℚ. -/
def rustRound (q : ℚ) : ℚ :=
  if 0 ≤ q then ((⌊q + 1/2⌋ : ℤ) : ℚ) else ((⌈q - 1/2⌉ : ℤ) : ℚ)

/-- `Map::project_ortho` of `map.rs`. -/
def Map.project_ortho (pos : Vec2) (tile_width tile_height : ℚ) : Vec2 :=
  let x := tile_width * pos.x
  let y := tile_height * pos.y
  ⟨x, -y⟩

/-- `Map::unproject_ortho` of `map.rs`. -/
def Map.unproject_ortho (pos : Vec2) (tile_width tile_height : ℚ) : Vec2 :=
  let x := pos.x / tile_width
  let y := -pos.y / tile_height
  ⟨x, y⟩

/-- `Map::project_iso` of `map.rs`. -/
def Map.project_iso (pos : Vec2) (tile_width tile_height : ℚ) : Vec2 :=
  let x := (pos.x - pos.y) * tile_width / 2
  let y := (pos.x + pos.y) * tile_height / 2
  ⟨x, -y⟩

/-- `Map::unproject_iso` of `map.rs`. -/
def Map.unproject_iso (pos : Vec2) (tile_width tile_height : ℚ) : Vec2 :=
  let half_width := tile_width / 2
  let half_height := tile_height / 2
  let x := ((pos.x / half_width) + (-pos.y / half_height)) / 2
  let y := ((-pos.y / half_height) - (pos.x / half_width)) / 2
  ⟨rustRound x, rustRound y⟩

/-- `Map::center` of `map.rs`. The `panic!` on an unsupported orientation
is modelled as the `Except.error` branch. -/
def Map.center (m : Map) (origin : Vec3) : Except String Vec3 :=
  let tile_size : Vec2 := ⟨(m.map.tile_width : ℚ), (m.map.tile_height : ℚ)⟩
  let map_center : Vec2 := ⟨(m.map.width : ℚ) / 2, (m.map.height : ℚ) / 2⟩
  match m.map.orientation with
  | Orientation.orthogonal =>
    let c := Map.project_ortho map_center tile_size.x tile_size.y
    Except.ok ⟨origin.x - c.x * 4, origin.y - c.y * 4, origin.z⟩
  | Orientation.isometric =>
    let c := Map.project_iso map_center tile_size.x tile_size.y
    Except.ok ⟨origin.x - c.x * 4, origin.y - c.y * 4, origin.z⟩
  | _ => Except.error "Unsupported orientation"

theorem rustRound_intCast (a : ℤ) : rustRound (a : ℚ) = a := by
  unfold rustRound
  rcases le_or_lt 0 (a : ℚ) with h | h
  · rw [if_pos h]
    have : ⌊(a : ℚ) + 1/2⌋ = a + ⌊(1/2 : ℚ)⌋ := Int.floor_int_add a (1/2)
    norm_num [this]
  · rw [if_neg (not_le.mpr h)]
    have : ⌈(-(1/2) : ℚ) + (a : ℤ)⌉ = ⌈(-(1/2) : ℚ)⌉ + a := Int.ceil_add_int (-(1/2)) a
    have h2 : ⌈(-(1/2) : ℚ)⌉ = 0 := by
      rw [Int.ceil_eq_zero_iff]
      constructor <;> norm_num
    rw [show (a : ℚ) - 1/2 = (-(1/2) : ℚ) + (a : ℤ) by ring, this, h2]
    norm_num

theorem rustRound_nearest (q : ℚ) : |rustRound q - q| ≤ 1/2 := by
  unfold rustRound
  rcases le_or_lt 0 q with h | h
  · rw [if_pos h, abs_le]
    constructor
    · linarith [Int.lt_floor_add_one (q + 1/2)]
    · linarith [Int.floor_le (q + 1/2)]
  · rw [if_neg (not_le.mpr h), abs_le]
    constructor
    · linarith [Int.le_ceil (q - 1/2)]
    · linarith [Int.ceil_lt_add_one (q - 1/2)]

theorem rustRound_exists_int (q : ℚ) : ∃ k : ℤ, rustRound q = (k : ℚ) := by
  unfold rustRound
  rcases le_or_lt 0 q with h | h
  · exact ⟨_, by rw [if_pos h]⟩
  · exact ⟨_, by rw [if_neg (not_le.mpr h)]⟩

/-- The isometric round trip reduces to componentwise rounding. -/
theorem iso_round_trip_eq (p : Vec2) (w h : ℚ) (hw : w ≠ 0) (hh : h ≠ 0) :
    Map.unproject_iso (Map.project_iso p w h) w h = ⟨rustRound p.x, rustRound p.y⟩ := by
  cases p with
  | mk px py =>
    simp only [Map.project_iso, Map.unproject_iso, Vec2.mk.injEq]
    constructor
    · congr 1
      field_simp
    · congr 1
      field_simp

/-- C7: for all tile dimensions w, h > 0 and all grid positions p,
`unproject_ortho (project_ortho p w h) w h = p` exactly, where
`project_ortho p w h = (w * p.x, -(h * p.y))` and `unproject_ortho` is its
algebraic inverse. -/
theorem ortho_round_trip (p : Vec2) (w h : ℚ) (hw : 0 < w) (hh : 0 < h) :
    Map.unproject_ortho (Map.project_ortho p w h) w h = p := by
  have hw0 : w ≠ 0 := ne_of_gt hw
  have hh0 : h ≠ 0 := ne_of_gt hh
  cases p with
  | mk px py =>
    simp only [Map.project_ortho, Map.unproject_ortho, Vec2.mk.injEq]
    constructor
    · exact mul_div_cancel_left₀ px hw0
    · rw [neg_neg]
      exact mul_div_cancel_left₀ py hh0

/-- Witness for C7 at p = (3, -5), w = 2, h = 4. -/
theorem ortho_round_trip_witness :
    Map.unproject_ortho (Map.project_ortho ⟨3, -5⟩ 2 4) 2 4 = ⟨3, -5⟩ :=
  ortho_round_trip ⟨3, -5⟩ 2 4 (by norm_num) (by norm_num)

/-- C8: for w, h > 0, the isometric round trip is exact on integer grid
positions; in general it equals componentwise rounding, and the result is
an integer grid cell within 1/2 of the source in each coordinate (the
nearest integer grid cell). -/
theorem iso_round_trip (w h : ℚ) (hw : 0 < w) (hh : 0 < h) :
    (∀ a b : ℤ, Map.unproject_iso (Map.project_iso ⟨(a : ℚ), (b : ℚ)⟩ w h) w h
        = ⟨(a : ℚ), (b : ℚ)⟩)
    ∧ (∀ p : Vec2, Map.unproject_iso (Map.project_iso p w h) w h
        = ⟨rustRound p.x, rustRound p.y⟩)
    ∧ (∀ p : Vec2, ∃ ka kb : ℤ,
        Map.unproject_iso (Map.project_iso p w h) w h = ⟨(ka : ℚ), (kb : ℚ)⟩
        ∧ |(ka : ℚ) - p.x| ≤ 1/2 ∧ |(kb : ℚ) - p.y| ≤ 1/2) := by
  have hw0 : w ≠ 0 := ne_of_gt hw
  have hh0 : h ≠ 0 := ne_of_gt hh
  refine ⟨fun a b => ?_, fun p => iso_round_trip_eq p w h hw0 hh0, fun p => ?_⟩
  · rw [iso_round_trip_eq ⟨(a : ℚ), (b : ℚ)⟩ w h hw0 hh0]
    simp [rustRound_intCast]
  · obtain ⟨ka, hka⟩ := rustRound_exists_int p.x
    obtain ⟨kb, hkb⟩ := rustRound_exists_int p.y
    refine ⟨ka, kb, ?_, ?_, ?_⟩
    · rw [iso_round_trip_eq p w h hw0 hh0, hka, hkb]
    · rw [← hka]
      exact rustRound_nearest p.x
    · rw [← hkb]
      exact rustRound_nearest p.y

/-- Witness for C8 at a = 3, b = -4, w = 2, h = 6. -/
theorem iso_round_trip_witness :
    Map.unproject_iso (Map.project_iso ⟨((3 : ℤ) : ℚ), ((-4 : ℤ) : ℚ)⟩ 2 6) 2 6
      = ⟨((3 : ℤ) : ℚ), ((-4 : ℤ) : ℚ)⟩ :=
  (iso_round_trip 2 6 (by norm_num) (by norm_num)).1 3 (-4)

/-- C6: `center` computes the half-extent (width/2, height/2), projects it
with `project_ortho` for orthogonal maps and `project_iso` for isometric
maps, returns origin minus 4 times the projected half-extent in x and y,
and fails fatally for every other orientation. -/
theorem center_spec (m : Map) (origin : Vec3) :
    (m.map.orientation = Orientation.orthogonal →
      m.center origin = Except.ok
        ⟨origin.x - (Map.project_ortho ⟨(m.map.width : ℚ) / 2, (m.map.height : ℚ) / 2⟩
            (m.map.tile_width : ℚ) (m.map.tile_height : ℚ)).x * 4,
         origin.y - (Map.project_ortho ⟨(m.map.width : ℚ) / 2, (m.map.height : ℚ) / 2⟩
            (m.map.tile_width : ℚ) (m.map.tile_height : ℚ)).y * 4,
         origin.z⟩)
    ∧ (m.map.orientation = Orientation.isometric →
      m.center origin = Except.ok
        ⟨origin.x - (Map.project_iso ⟨(m.map.width : ℚ) / 2, (m.map.height : ℚ) / 2⟩
            (m.map.tile_width : ℚ) (m.map.tile_height : ℚ)).x * 4,
         origin.y - (Map.project_iso ⟨(m.map.width : ℚ) / 2, (m.map.height : ℚ) / 2⟩
            (m.map.tile_width : ℚ) (m.map.tile_height : ℚ)).y * 4,
         origin.z⟩)
    ∧ (m.map.orientation ≠ Orientation.orthogonal →
        m.map.orientation ≠ Orientation.isometric →
        m.center origin = Except.error "Unsupported orientation") := by
  refine ⟨fun h1 => ?_, fun h1 => ?_, fun h1 h2 => ?_⟩
  · simp [Map.center, h1]
  · simp [Map.center, h1]
  · cases ho : m.map.orientation with
    | orthogonal => exact absurd ho h1
    | isometric => exact absurd ho h2
    | staggered => simp [Map.center, ho]
    | hexagonal => simp [Map.center, ho]

/-- A concrete orthogonal example map. -/
def mapOrthoEx : Map :=
  { map := { orientation := Orientation.orthogonal, width := 4, height := 2,
             tile_width := 8, tile_height := 8, tilesets := [] },
    meshes := [], layers := [], tile_size := ⟨8, 8⟩, image_folder := "assets" }

/-- A concrete isometric example map. -/
def mapIsoEx : Map :=
  { map := { orientation := Orientation.isometric, width := 4, height := 2,
             tile_width := 8, tile_height := 8, tilesets := [] },
    meshes := [], layers := [], tile_size := ⟨8, 8⟩, image_folder := "assets" }

/-- A concrete staggered example map. -/
def mapStagEx : Map :=
  { map := { orientation := Orientation.staggered, width := 4, height := 2,
             tile_width := 8, tile_height := 8, tilesets := [] },
    meshes := [], layers := [], tile_size := ⟨8, 8⟩, image_folder := "assets" }

/-- Witness for C6: the orthogonal branch at a concrete map and the fatal
branch at a concrete staggered map. -/
theorem center_spec_witness :
    Map.center mapOrthoEx ⟨10, 20, 30⟩ = Except.ok
      ⟨10 - (Map.project_ortho ⟨(mapOrthoEx.map.width : ℚ) / 2, (mapOrthoEx.map.height : ℚ) / 2⟩
          (mapOrthoEx.map.tile_width : ℚ) (mapOrthoEx.map.tile_height : ℚ)).x * 4,
       20 - (Map.project_ortho ⟨(mapOrthoEx.map.width : ℚ) / 2, (mapOrthoEx.map.height : ℚ) / 2⟩
          (mapOrthoEx.map.tile_width : ℚ) (mapOrthoEx.map.tile_height : ℚ)).y * 4,
       30⟩
    ∧ Map.center mapStagEx ⟨10, 20, 30⟩ = Except.error "Unsupported orientation" :=
  ⟨(center_spec mapOrthoEx ⟨10, 20, 30⟩).1 rfl,
   (center_spec mapStagEx ⟨10, 20, 30⟩).2.2 (by decide) (by decide)⟩

/-- C10: for orthogonal or isometric maps, `center` succeeds and preserves
the z component of the origin. -/
theorem center_preserves_z (m : Map) (origin : Vec3)
    (h : m.map.orientation = Orientation.orthogonal
        ∨ m.map.orientation = Orientation.isometric) :
    ∃ v, m.center origin = Except.ok v ∧ v.z = origin.z := by
  rcases h with h | h
  · exact ⟨_, (center_spec m origin).1 h, rfl⟩
  · exact ⟨_, (center_spec m origin).2.1 h, rfl⟩

/-- Witness for C10 at a concrete isometric map. -/
theorem center_preserves_z_witness :
    ∃ v, Map.center mapIsoEx ⟨1, 2, 3⟩ = Except.ok v ∧ v.z = (⟨1, 2, 3⟩ : Vec3).z :=
  center_preserves_z mapIsoEx ⟨1, 2, 3⟩ (Or.inr rfl)

/-- `AssetEvent<Map>` lifecycle events; map asset handles are naturals. -/
inductive AssetEvent where
  | created (handle : Nat)
  | modified (handle : Nat)
  | removed (handle : Nat)
deriving DecidableEq

/-- The handle an event refers to. -/
def AssetEvent.handle : AssetEvent → Nat
  | created h => h
  | modified h => h
  | removed h => h

/-- One step of the event loop of `process_loaded_tile_maps`:
`Created` and `Modified` insert the handle, `Removed` erases it. -/
def applyEvent (s : Finset Nat) : AssetEvent → Finset Nat
  | AssetEvent.created h => insert h s
  | AssetEvent.modified h => insert h s
  | AssetEvent.removed h => s.erase h

/-- The changed-map set of one tick: the left fold of `applyEvent` over
the ordered event list, starting from the empty set. -/
def changed_maps (events : List AssetEvent) : Finset Nat :=
  events.foldl applyEvent ∅

theorem notMem_foldl_applyEvent (l : List AssetEvent) (s : Finset Nat) (A : Nat)
    (hs : A ∉ s) (hl : ∀ e ∈ l, e.handle ≠ A) :
    A ∉ l.foldl applyEvent s := by
  induction l generalizing s with
  | nil => exact hs
  | cons e rest ih =>
    rw [List.foldl_cons]
    refine ih _ ?_ (fun x hx => hl x (List.mem_cons_of_mem e hx))
    have hA : e.handle ≠ A := hl e (List.mem_cons_self e rest)
    cases e with
    | created h => simp only [applyEvent, Finset.mem_insert]; rintro (rfl | hmem)
                   · exact hA rfl
                   · exact hs hmem
    | modified h => simp only [applyEvent, Finset.mem_insert]; rintro (rfl | hmem)
                    · exact hA rfl
                    · exact hs hmem
    | removed h => simp only [applyEvent]; exact fun hmem => hs (Finset.mem_of_mem_erase hmem)

/-- C1: the changed-map set is the left fold in which Created and Modified
insert the handle and Removed deletes it; so Created-then-Removed yields
the empty set, Removed-then-Created and Created-then-Modified yield the
singleton, and a handle whose last event in the tick is a removal is not
in the final set. -/
theorem change_detector_spec (A : Nat) (l1 l2 : List AssetEvent)
    (hl : ∀ e ∈ l2, e.handle ≠ A) :
    (∀ (s : Finset Nat) (h : Nat),
        applyEvent s (AssetEvent.created h) = insert h s
        ∧ applyEvent s (AssetEvent.modified h) = insert h s
        ∧ applyEvent s (AssetEvent.removed h) = s.erase h)
    ∧ changed_maps [AssetEvent.created A, AssetEvent.removed A] = ∅
    ∧ changed_maps [AssetEvent.removed A, AssetEvent.created A] = {A}
    ∧ changed_maps [AssetEvent.created A, AssetEvent.modified A] = {A}
    ∧ A ∉ changed_maps (l1 ++ AssetEvent.removed A :: l2) := by
  refine ⟨fun s h => ⟨rfl, rfl, rfl⟩, ?_, ?_, ?_, ?_⟩
  · simp [changed_maps, applyEvent]
  · simp [changed_maps, applyEvent]
  · simp [changed_maps, applyEvent]
  · rw [changed_maps, List.foldl_append, List.foldl_cons]
    exact notMem_foldl_applyEvent l2 _ A
      (Finset.not_mem_erase A (List.foldl applyEvent ∅ l1)) hl

/-- Witness for C1: handle 0 is removed last among its events, so it is
not in the changed-map set. -/
theorem change_detector_spec_witness :
    0 ∉ changed_maps
      [AssetEvent.created 1, AssetEvent.removed 0, AssetEvent.modified 1] :=
  (change_detector_spec 0 [AssetEvent.created 1] [AssetEvent.modified 1]
    (by decide)).2.2.2.2

/-- Association-list lookup (first match wins), modelling `HashMap` maps
with natural-number keys. -/
def lookupAL {α : Type} (l : List (Nat × α)) (k : Nat) : Option α :=
  match l with
  | [] => none
  | (k2, v) :: rest => if k2 = k then some v else lookupAL rest k

/-- `HashMap::contains_key`. -/
def containsKeyAL {α : Type} (l : List (Nat × α)) (k : Nat) : Bool :=
  (lookupAL l k).isSome

/-- Update the value stored under a key in place (first match wins). -/
def updateAL {α : Type} (l : List (Nat × α)) (k : Nat) (f : α → α) : List (Nat × α) :=
  match l with
  | [] => []
  | (k2, v) :: rest => if k2 = k then (k2, f v) :: rest else (k2, v) :: updateAL rest k f

/-- The materials loop body of `process_loaded_tile_maps` for one map
instance: for each tileset of the changed map, if the instance's material
cache lacks `first_gid`, build the texture path, load the texture
(`unwrap`: failure panics, modelled as `Except.error`), allocate a
material (fresh handles from the counter `nextMat`) and insert it into
the cache. Returns the new cache, the list of texture paths loaded, and
the new material counter. `loadOk` models which paths the asset server
can resolve. -/
def resolveTilesets (loadOk : String → Bool) (folder : String) :
    List Tileset → List (Nat × Nat) → Nat →
    Except String (List (Nat × Nat) × List String × Nat)
  | [], cache, nextMat => Except.ok (cache, [], nextMat)
  | t :: rest, cache, nextMat =>
    if containsKeyAL cache t.first_gid then
      resolveTilesets loadOk folder rest cache nextMat
    else
      match t.images.head? with
      | none => Except.error "tileset has no image"
      | some src =>
        let texture_path := folder ++ "/" ++ src
        if loadOk texture_path then
          match resolveTilesets loadOk folder rest
              ((t.first_gid, nextMat) :: cache) (nextMat + 1) with
          | Except.ok (c, loads, nm) => Except.ok (c, texture_path :: loads, nm)
          | Except.error e => Except.error e
        else Except.error ("could not load texture " ++ texture_path)

/-- The inner query loop: the materials step runs over every live map
instance for the current changed map, threading the material counter. -/
def resolveInstances (loadOk : String → Bool) (folder : String) (ts : List Tileset) :
    List (List (Nat × Nat)) → Nat →
    Except String (List (List (Nat × Nat)) × Nat)
  | [], nextMat => Except.ok ([], nextMat)
  | cache :: rest, nextMat =>
    match resolveTilesets loadOk folder ts cache nextMat with
    | Except.error e => Except.error e
    | Except.ok (c, _, nm) =>
      match resolveInstances loadOk folder ts rest nm with
      | Except.error e => Except.error e
      | Except.ok (cs, nm2) => Except.ok (c :: cs, nm2)

/-- The mesh drain loop: each pending batch `(layer_id, tileset_guid, geometry)`
is uploaded (`meshes.add`, fresh handles from the counter) and mapped to a
mesh-index entry `(layer_id, tileset_guid, mesh_handle)`. -/
def uploadMeshes : List (Nat × Nat × Nat) → Nat → List (Nat × Nat × Nat) × Nat
  | [], nextMesh => ([], nextMesh)
  | (lid, guid, _) :: rest, nextMesh =>
    let (es, nm) := uploadMeshes rest (nextMesh + 1)
    ((lid, guid, nextMesh) :: es, nm)

/-- Mesh Redistribution for one changed map: drain the entire pending
batch list (`meshes.drain(0..len)`), upload each batch, and return the
drained map, its mesh-index entries, and the new mesh counter. -/
def redistributeMap (m : Map) (nextMesh : Nat) : Map × List (Nat × Nat × Nat) × Nat :=
  ({ m with meshes := [] }, uploadMeshes m.meshes nextMesh)

/-- Push one mesh-index entry into the per-tick `new_meshes` map, exactly
as the source: push onto the existing list if the key is present,
otherwise insert a fresh singleton list. -/
def pushEntry (nmap : List (Nat × List (Nat × Nat × Nat))) (h : Nat)
    (e : Nat × Nat × Nat) : List (Nat × List (Nat × Nat × Nat)) :=
  if containsKeyAL nmap h then updateAL nmap h (fun l => l ++ [e])
  else (h, [e]) :: nmap

/-- Push a list of entries one at a time (the drain loop). -/
def pushEntries (nmap : List (Nat × List (Nat × Nat × Nat))) (h : Nat) :
    List (Nat × Nat × Nat) → List (Nat × List (Nat × Nat × Nat))
  | [] => nmap
  | e :: rest => pushEntries (pushEntry nmap h e) h rest

/-- The mutable state threaded through one tick of
`process_loaded_tile_maps`: the map asset store, the material cache of
every live map instance, fresh-handle counters for materials and meshes,
and the per-tick `new_meshes` index. -/
structure SyncState where
  mapsStore : List (Nat × Map)
  caches : List (List (Nat × Nat))
  nextMat : Nat
  nextMesh : Nat
  newMeshes : List (Nat × List (Nat × Nat × Nat))
deriving DecidableEq

/-- The body of the `for changed_map in changed_maps` loop:
`maps.get_mut(changed_map).unwrap()` (a missing asset panics, modelled as
`Except.error`), then the materials loop over all instances, then the
mesh drain. -/
def processChangedMap (loadOk : String → Bool) (st : SyncState) (h : Nat) :
    Except String SyncState :=
  match lookupAL st.mapsStore h with
  | none => Except.error "no map asset for changed handle"
  | some m =>
    match resolveInstances loadOk m.image_folder m.map.tilesets st.caches st.nextMat with
    | Except.error e => Except.error e
    | Except.ok r =>
      let rd := redistributeMap m st.nextMesh
      Except.ok { mapsStore := updateAL st.mapsStore h (fun _ => rd.1),
                  caches := r.1,
                  nextMat := r.2,
                  nextMesh := rd.2.2,
                  newMeshes := pushEntries st.newMeshes h rd.2.1 }

/-- The whole changed-maps loop of one tick; a panic anywhere aborts the
remainder of the tick (Rust panics unwind out of the system). -/
def processChangedMaps (loadOk : String → Bool) :
    SyncState → List Nat → Except String SyncState
  | st, [] => Except.ok st
  | st, h :: rest =>
    match processChangedMap loadOk st h with
    | Except.error e => Except.error e
    | Except.ok st2 => processChangedMaps loadOk st2 rest

/-- Uploading pending batches enumerates them in order: batch i becomes
the entry `(layer_id, tileset_guid, nextMesh + i)`. -/
theorem uploadMeshes_eq (pending : List (Nat × Nat × Nat)) (n : Nat) :
    uploadMeshes pending n
      = ((pending.enumFrom n).map (fun p => (p.2.1, p.2.2.1, p.1)),
         n + pending.length) := by
  induction pending generalizing n with
  | nil => simp [uploadMeshes]
  | cons b rest ih =>
    obtain ⟨lid, guid, g⟩ := b
    simp [uploadMeshes, ih (n + 1), List.enumFrom]
    omega

/-- C3: Mesh Redistribution drains the pending batch list to empty, each
drained batch contributes exactly one `(layer_id, tileset_guid, mesh_handle)`
entry (entry i comes from batch i, with a fresh handle), and running
redistribution again on the drained map produces no further entries. -/
theorem redistribute_drain_once (m : Map) (n : Nat) :
    ((redistributeMap m n).1).meshes = []
    ∧ (redistributeMap m n).2.1
        = (m.meshes.enumFrom n).map (fun p => (p.2.1, p.2.2.1, p.1))
    ∧ (redistributeMap m n).2.1.length = m.meshes.length
    ∧ (redistributeMap (redistributeMap m n).1 ((redistributeMap m n).2.2)).2.1
        = [] := by
  refine ⟨rfl, ?_, ?_, ?_⟩
  · simp [redistributeMap, uploadMeshes_eq]
  · simp [redistributeMap, uploadMeshes_eq]
  · simp [redistributeMap, uploadMeshes_eq, uploadMeshes]

/-- Updating a key leaves absent keys absent. -/
theorem lookupAL_updateAL_none {α : Type} {l : List (Nat × α)} {k2 : Nat}
    (h : lookupAL l k2 = none) (k : Nat) (f : α → α) :
    lookupAL (updateAL l k f) k2 = none := by
  induction l with
  | nil => rfl
  | cons p rest ih =>
    obtain ⟨k3, v⟩ := p
    rw [lookupAL] at h
    by_cases h32 : k3 = k2
    · simp [h32] at h
    · rw [if_neg h32] at h
      rw [updateAL]
      by_cases h3k : k3 = k
      · rw [if_pos h3k, lookupAL, if_neg h32]
        exact h
      · rw [if_neg h3k, lookupAL, if_neg h32]
        exact ih h

/-- Inversion of a successful changed-map step. -/
theorem processChangedMap_ok {loadOk : String → Bool} {st : SyncState} {h : Nat}
    {st2 : SyncState} (hok : processChangedMap loadOk st h = Except.ok st2) :
    ∃ m r, lookupAL st.mapsStore h = some m
      ∧ resolveInstances loadOk m.image_folder m.map.tilesets st.caches st.nextMat
          = Except.ok r
      ∧ st2 = { mapsStore := updateAL st.mapsStore h
                    (fun _ => (redistributeMap m st.nextMesh).1),
                caches := r.1,
                nextMat := r.2,
                nextMesh := (redistributeMap m st.nextMesh).2.2,
                newMeshes := pushEntries st.newMeshes h
                    (redistributeMap m st.nextMesh).2.1 } := by
  rw [processChangedMap] at hok
  cases hm : lookupAL st.mapsStore h with
  | none => rw [hm] at hok; cases hok
  | some m =>
    rw [hm] at hok
    dsimp only at hok
    cases hr : resolveInstances loadOk m.image_folder m.map.tilesets st.caches st.nextMat with
    | error e =>
      rw [hr] at hok
      cases hok
    | ok r =>
      rw [hr] at hok
      dsimp only at hok
      exact ⟨m, r, rfl, hr, (Except.ok.inj hok).symm⟩

/-- A step of the changed-maps loop never adds keys to the asset store. -/
theorem processChangedMap_preserves_missing {loadOk : String → Bool} {st : SyncState}
    {h : Nat} {st2 : SyncState} {k : Nat}
    (hok : processChangedMap loadOk st h = Except.ok st2)
    (hk : lookupAL st.mapsStore k = none) :
    lookupAL st2.mapsStore k = none := by
  obtain ⟨m, r, _, _, hst2⟩ := processChangedMap_ok hok
  rw [hst2]
  exact lookupAL_updateAL_none hk h _

/-- C2 amended: a changed handle whose map asset is no longer in the
asset store is not silently skipped — the unwrap panics and the whole
tick's synchronization aborts with an error. -/
theorem missing_asset_aborts_tick (loadOk : String → Bool) (changed : List Nat)
    (st : SyncState) (h : Nat) (hmem : h ∈ changed)
    (hmiss : lookupAL st.mapsStore h = none) :
    ∃ e, processChangedMaps loadOk st changed = Except.error e := by
  induction changed generalizing st with
  | nil => cases hmem
  | cons h1 rest ih =>
    simp only [processChangedMaps]
    cases hp : processChangedMap loadOk st h1 with
    | error e => exact ⟨e, rfl⟩
    | ok st2 =>
      rcases List.mem_cons.mp hmem with heq | hmem2
      · subst heq
        rw [processChangedMap, hmiss] at hp
        cases hp
      · exact ih st2 hmem2 (processChangedMap_preserves_missing hp hmiss)

/-- A minimal concrete present map: no tilesets, one pending batch. -/
def mapPlainEx : Map :=
  { map := { orientation := Orientation.orthogonal, width := 1, height := 1,
             tile_width := 8, tile_height := 8, tilesets := [] },
    meshes := [(0, 7, 0)], layers := [], tile_size := ⟨8, 8⟩,
    image_folder := "assets" }

/-- A tick state where map handle 1 is present but handle 0 is absent. -/
def stMissingEx : SyncState :=
  { mapsStore := [(1, mapPlainEx)], caches := [[]], nextMat := 0, nextMesh := 0,
    newMeshes := [] }

/-- C2 counterexample: handle 0 is in the changed set but its asset is
gone; the tick does not silently skip it and continue with map 1 — it
aborts with an error. -/
theorem missing_asset_not_silently_absorbed :
    processChangedMaps (fun _ => true) stMissingEx [0, 1]
      = Except.error "no map asset for changed handle" := by
  rfl

/-- Witness for the amended C2 at a concrete state. -/
theorem missing_asset_aborts_tick_witness :
    ∃ e, processChangedMaps (fun _ => true) stMissingEx [0]
      = Except.error e :=
  missing_asset_aborts_tick (fun _ => true) [0] stMissingEx 0
    (List.mem_singleton.mpr rfl) rfl

/-- C9 amended: a fatal failure while synchronizing one map aborts the
entire remainder of the tick: the loop returns the failure and the
sibling maps after it are never processed. -/
theorem fatal_failure_aborts_siblings (loadOk : String → Bool) (st : SyncState)
    (h : Nat) (e : String) (rest : List Nat)
    (hfail : processChangedMap loadOk st h = Except.error e) :
    processChangedMaps loadOk st (h :: rest) = Except.error e := by
  simp only [processChangedMaps, hfail]

/-- A map whose only tileset references an unresolvable texture path. -/
def mapBadTexEx : Map :=
  { map := { orientation := Orientation.orthogonal, width := 1, height := 1,
             tile_width := 8, tile_height := 8,
             tilesets := [{ first_gid := 7, images := ["bad.png"] }] },
    meshes := [], layers := [], tile_size := ⟨8, 8⟩, image_folder := "assets" }

/-- An asset server that can resolve every path except `assets/bad.png`. -/
def loadBadEx : String → Bool :=
  fun p => p != "assets/bad.png"

/-- A tick state with two present maps: map 1 has the unresolvable
texture, sibling map 2 is healthy with one pending geometry batch. -/
def stTexFailEx : SyncState :=
  { mapsStore := [(1, mapBadTexEx), (2, mapPlainEx)], caches := [[]],
    nextMat := 0, nextMesh := 0, newMeshes := [] }

/-- C9 counterexample: the texture failure on map 1 does not abort only
map 1 — the whole tick errors and sibling map 2 is never processed. -/
theorem texture_failure_not_isolated :
    processChangedMaps loadBadEx stTexFailEx [1, 2]
      = Except.error "could not load texture assets/bad.png" := by
  rfl

/-- Witness for the amended C9 at a concrete state. -/
theorem fatal_failure_aborts_siblings_witness :
    processChangedMaps loadBadEx stTexFailEx
        [1, 2, 2] = Except.error "could not load texture assets/bad.png" :=
  fatal_failure_aborts_siblings loadBadEx stTexFailEx 1
    "could not load texture assets/bad.png" [2, 2] rfl

theorem containsKeyAL_cons_of {α : Type} {l : List (Nat × α)} {g : Nat}
    (h : containsKeyAL l g = true) (k : Nat) (v : α) :
    containsKeyAL ((k, v) :: l) g = true := by
  simp only [containsKeyAL, lookupAL] at h ⊢
  by_cases hk : k = g
  · simp [hk]
  · simpa [hk] using h

theorem containsKeyAL_cons_self {α : Type} (k : Nat) (v : α) (l : List (Nat × α)) :
    containsKeyAL ((k, v) :: l) k = true := by
  simp [containsKeyAL, lookupAL]

/-- A successful materials pass over one instance only grows the key set
of its cache, and afterwards every tileset of the map has a key. -/
theorem resolveTilesets_keys (loadOk : String → Bool) (folder : String) :
    ∀ (ts : List Tileset) (cache : List (Nat × Nat)) (nm : Nat)
      {c2 : List (Nat × Nat)} {loads : List String} {nm2 : Nat},
    resolveTilesets loadOk folder ts cache nm = Except.ok (c2, loads, nm2) →
    (∀ g, containsKeyAL cache g = true → containsKeyAL c2 g = true)
    ∧ (∀ t ∈ ts, containsKeyAL c2 t.first_gid = true)
    ∧ c2.length = cache.length + loads.length := by
  intro ts
  induction ts with
  | nil =>
    intro cache nm c2 loads nm2 hok
    simp only [resolveTilesets, Except.ok.injEq, Prod.mk.injEq] at hok
    obtain ⟨rfl, rfl, rfl⟩ := hok
    exact ⟨fun g hg => hg, fun t ht => absurd ht (List.not_mem_nil t), rfl⟩
  | cons t rest ih =>
    intro cache nm c2 loads nm2 hok
    rw [resolveTilesets] at hok
    by_cases hc : containsKeyAL cache t.first_gid
    · rw [if_pos hc] at hok
      obtain ⟨mono, cov, hlen⟩ := ih cache nm hok
      refine ⟨mono, ?_, hlen⟩
      intro t2 ht2
      rcases List.mem_cons.mp ht2 with heq | h2
      · exact heq ▸ mono _ hc
      · exact cov t2 h2
    · rw [if_neg hc] at hok
      cases hh : t.images.head? with
      | none => rw [hh] at hok; cases hok
      | some src =>
        rw [hh] at hok
        dsimp only at hok
        by_cases hl : loadOk (folder ++ "/" ++ src)
        · rw [if_pos hl] at hok
          cases hr : resolveTilesets loadOk folder rest ((t.first_gid, nm) :: cache) (nm + 1) with
          | error e => rw [hr] at hok; cases hok
          | ok r =>
            obtain ⟨c3, loads3, nm3⟩ := r
            rw [hr] at hok
            dsimp only at hok
            simp only [Except.ok.injEq, Prod.mk.injEq] at hok
            obtain ⟨rfl, rfl, rfl⟩ := hok
            obtain ⟨mono, cov, hlen⟩ := ih _ _ hr
            refine ⟨fun g hg => mono g (containsKeyAL_cons_of hg _ _), ?_, ?_⟩
            · intro t2 ht2
              rcases List.mem_cons.mp ht2 with heq | h2
              · exact heq ▸ mono _ (containsKeyAL_cons_self t.first_gid nm cache)
              · exact cov t2 h2
            · simp only [List.length_cons] at hlen
              simp only [List.length_cons, hlen]
              omega
        · rw [if_neg hl] at hok; cases hok

/-- Resolving when every tileset key is already cached is the identity:
no texture load is issued, the cache and the material counter are
unchanged. -/
theorem resolveTilesets_cached (loadOk : String → Bool) (folder : String) :
    ∀ (ts : List Tileset) (cache : List (Nat × Nat)) (nm : Nat),
    (∀ t ∈ ts, containsKeyAL cache t.first_gid = true) →
    resolveTilesets loadOk folder ts cache nm = Except.ok (cache, [], nm) := by
  intro ts
  induction ts with
  | nil => intro cache nm _; rfl
  | cons t rest ih =>
    intro cache nm hall
    rw [resolveTilesets, if_pos (hall t (List.mem_cons_self t rest))]
    exact ih cache nm (fun t2 ht2 => hall t2 (List.mem_cons_of_mem t ht2))

/-- The materials pass over all instances: keys grow pointwise, and every
resulting cache covers every tileset of the processed map. -/
theorem resolveInstances_keys (loadOk : String → Bool) (folder : String)
    (ts : List Tileset) :
    ∀ (caches : List (List (Nat × Nat))) (nm : Nat)
      {cs2 : List (List (Nat × Nat))} {nm2 : Nat},
    resolveInstances loadOk folder ts caches nm = Except.ok (cs2, nm2) →
    (∀ g, (∀ c ∈ caches, containsKeyAL c g = true) →
        ∀ c2 ∈ cs2, containsKeyAL c2 g = true)
    ∧ (∀ c2 ∈ cs2, ∀ t ∈ ts, containsKeyAL c2 t.first_gid = true) := by
  intro caches
  induction caches with
  | nil =>
    intro nm cs2 nm2 hok
    simp only [resolveInstances, Except.ok.injEq, Prod.mk.injEq] at hok
    obtain ⟨rfl, rfl⟩ := hok
    exact ⟨fun g _ c2 hc2 => absurd hc2 (List.not_mem_nil c2),
           fun c2 hc2 => absurd hc2 (List.not_mem_nil c2)⟩
  | cons cache rest ih =>
    intro nm cs2 nm2 hok
    rw [resolveInstances] at hok
    cases h1 : resolveTilesets loadOk folder ts cache nm with
    | error e => rw [h1] at hok; cases hok
    | ok r =>
      obtain ⟨c, loads, nm3⟩ := r
      rw [h1] at hok
      dsimp only at hok
      cases h2 : resolveInstances loadOk folder ts rest nm3 with
      | error e => rw [h2] at hok; cases hok
      | ok r2 =>
        obtain ⟨cs, nm4⟩ := r2
        rw [h2] at hok
        dsimp only at hok
        simp only [Except.ok.injEq, Prod.mk.injEq] at hok
        obtain ⟨rfl, rfl⟩ := hok
        obtain ⟨mono1, cov1, _⟩ := resolveTilesets_keys loadOk folder ts cache nm h1
        obtain ⟨mono2, cov2⟩ := ih nm3 h2
        constructor
        · intro g hg c2 hc2
          rcases List.mem_cons.mp hc2 with heq | hmem
          · exact heq ▸ mono1 g (hg cache (List.mem_cons_self cache rest))
          · exact mono2 g (fun c3 hc3 => hg c3 (List.mem_cons_of_mem cache hc3)) c2 hmem
        · intro c2 hc2 t ht
          rcases List.mem_cons.mp hc2 with heq | hmem
          · exact heq ▸ cov1 t ht
          · exact cov2 c2 hmem t ht

/-- Lookup after an in-place update. -/
theorem lookupAL_updateAL {α : Type} (l : List (Nat × α)) (k k2 : Nat) (f : α → α) :
    lookupAL (updateAL l k f) k2
      = if k = k2 then (lookupAL l k).map f else lookupAL l k2 := by
  induction l with
  | nil => simp [updateAL, lookupAL]
  | cons p rest ih =>
    obtain ⟨k3, v⟩ := p
    by_cases h3 : k3 = k
    · subst h3
      by_cases h2 : k3 = k2
      · subst h2
        simp [updateAL, lookupAL]
      · simp [updateAL, lookupAL, h2]
    · by_cases h2 : k3 = k2
      · subst h2
        have hk : ¬(k = k3) := fun he => h3 he.symm
        simp [updateAL, lookupAL, h3, hk]
      · simp [updateAL, lookupAL, h3, h2, ih]

/-- A changed-map step only drains meshes: the metadata of every stored
map is preserved. -/
theorem processChangedMap_store {loadOk : String → Bool} {st : SyncState}
    {h : Nat} {st2 : SyncState}
    (hok : processChangedMap loadOk st h = Except.ok st2) :
    ∀ k m, lookupAL st.mapsStore k = some m →
      ∃ m2, lookupAL st2.mapsStore k = some m2 ∧ m2.map = m.map := by
  obtain ⟨m0, r, hm0, hr, rfl⟩ := processChangedMap_ok hok
  intro k m hk
  by_cases he : h = k
  · subst he
    rw [hm0] at hk
    injection hk with hk
    refine ⟨{ m with meshes := [] }, ?_, rfl⟩
    rw [lookupAL_updateAL, if_pos rfl, hm0, hk]
    rfl
  · refine ⟨m, ?_, rfl⟩
    rw [lookupAL_updateAL, if_neg he]
    exact hk

/-- A changed-map step preserves caches that already contain a key. -/
theorem processChangedMap_caches_mono {loadOk : String → Bool} {st : SyncState}
    {h : Nat} {st2 : SyncState}
    (hok : processChangedMap loadOk st h = Except.ok st2) (g : Nat)
    (hg : ∀ c ∈ st.caches, containsKeyAL c g = true) :
    ∀ c ∈ st2.caches, containsKeyAL c g = true := by
  obtain ⟨m0, r, hm0, hr, rfl⟩ := processChangedMap_ok hok
  obtain ⟨cs2, nm2⟩ := r
  exact (resolveInstances_keys loadOk m0.image_folder m0.map.tilesets
    st.caches st.nextMat hr).1 g hg

/-- After a changed-map step, every instance cache covers every tileset
of the processed map. -/
theorem processChangedMap_covers {loadOk : String → Bool} {st : SyncState}
    {h : Nat} {st2 : SyncState}
    (hok : processChangedMap loadOk st h = Except.ok st2)
    {m : Map} (hm : lookupAL st.mapsStore h = some m) :
    ∀ c ∈ st2.caches, ∀ t ∈ m.map.tilesets, containsKeyAL c t.first_gid = true := by
  obtain ⟨m0, r, hm0, hr, rfl⟩ := processChangedMap_ok hok
  rw [hm0] at hm
  injection hm with hm
  obtain ⟨cs2, nm2⟩ := r
  intro c hc t ht
  rw [← hm] at ht
  exact (resolveInstances_keys loadOk m0.image_folder m0.map.tilesets
    st.caches st.nextMat hr).2 c hc t ht

/-- The whole tick preserves caches that already contain a key. -/
theorem processChangedMaps_caches_mono (loadOk : String → Bool)
    (changed : List Nat) :
    ∀ (st st2 : SyncState),
    processChangedMaps loadOk st changed = Except.ok st2 →
    ∀ g, (∀ c ∈ st.caches, containsKeyAL c g = true) →
    ∀ c ∈ st2.caches, containsKeyAL c g = true := by
  induction changed with
  | nil =>
    intro st st2 hok
    simp only [processChangedMaps, Except.ok.injEq] at hok
    subst hok
    exact fun g hg => hg
  | cons h1 rest ih =>
    intro st st2 hok
    simp only [processChangedMaps] at hok
    cases hp : processChangedMap loadOk st h1 with
    | error e => rw [hp] at hok; cases hok
    | ok stA =>
      rw [hp] at hok
      exact fun g hg =>
        ih stA st2 hok g (processChangedMap_caches_mono hp g hg)

/-- C4: no texture load is issued for an already-cached tileset key
(resolving a fully cached instance is the identity, and resolving the
same instance twice issues no load the second time; each load that is
issued adds exactly one new cache entry), and after a successful tick
every live instance's cache has an entry for every tileset of every
changed map. -/
theorem material_cache_spec :
    (∀ (loadOk : String → Bool) (folder : String) (ts : List Tileset)
        (cache : List (Nat × Nat)) (nm : Nat),
      (∀ t ∈ ts, containsKeyAL cache t.first_gid = true) →
      resolveTilesets loadOk folder ts cache nm = Except.ok (cache, [], nm))
    ∧ (∀ (loadOk : String → Bool) (folder : String) (ts : List Tileset)
        (cache : List (Nat × Nat)) (nm : Nat) (c2 : List (Nat × Nat))
        (loads : List String) (nm2 : Nat),
      resolveTilesets loadOk folder ts cache nm = Except.ok (c2, loads, nm2) →
      c2.length = cache.length + loads.length
      ∧ resolveTilesets loadOk folder ts c2 nm2 = Except.ok (c2, [], nm2))
    ∧ (∀ (loadOk : String → Bool) (st : SyncState) (changed : List Nat)
        (st2 : SyncState),
      processChangedMaps loadOk st changed = Except.ok st2 →
      ∀ h ∈ changed, ∀ m, lookupAL st.mapsStore h = some m →
      ∀ c ∈ st2.caches, ∀ t ∈ m.map.tilesets,
        containsKeyAL c t.first_gid = true) := by
  refine ⟨resolveTilesets_cached, fun loadOk folder ts cache nm c2 loads nm2 hok => ?_, ?_⟩
  · obtain ⟨_, cov, hlen⟩ := resolveTilesets_keys loadOk folder ts cache nm hok
    exact ⟨hlen, resolveTilesets_cached loadOk folder ts c2 nm2 cov⟩
  · intro loadOk st changed
    induction changed generalizing st with
    | nil => intro st2 _ h hmem; cases hmem
    | cons h1 rest ih =>
      intro st2 hok h hmem m hm c hc t ht
      simp only [processChangedMaps] at hok
      cases hp : processChangedMap loadOk st h1 with
      | error e => rw [hp] at hok; cases hok
      | ok stA =>
        rw [hp] at hok
        rcases List.mem_cons.mp hmem with heq | hmem2
        · subst heq
          exact processChangedMaps_caches_mono loadOk rest stA st2 hok
            t.first_gid (fun cA hcA => processChangedMap_covers hp hm cA hcA t ht)
            c hc
        · obtain ⟨m2, hm2, hmap⟩ := processChangedMap_store hp h m hm
          exact ih stA st2 hok h hmem2 m2 hm2 c hc t (hmap ▸ ht)

/-- Witness for C4: a fully cached instance resolves with no loads. -/
theorem material_cache_spec_witness :
    resolveTilesets (fun _ => true) "assets"
        [{ first_gid := 7, images := ["a.png"] }] [(7, 0)] 5
      = Except.ok ([(7, 0)], [], 5) :=
  material_cache_spec.1 (fun _ => true) "assets"
    [{ first_gid := 7, images := ["a.png"] }] [(7, 0)] 5 (by decide)

/-- The data of a spawned `ChunkComponents` bundle that the synchronizer
determines: the chunk's layer id (`TileMapChunk`), the material and mesh
handles, and the transform translation. -/
structure ChunkComponents where
  layer_id : Nat
  material : Nat
  mesh : Nat
  transform : Vec3
deriving DecidableEq

/-- The (layer index, tileset guid) pairs of a map, in layer order then
tileset-layer order (the two nested spawn loops). -/
def mapPairs (m : Map) : List (Nat × Nat) :=
  (m.layers.enum).bind
    (fun li => li.2.tileset_layers.map (fun tl => (li.1, tl.tileset_guid)))

/-- The filter of the spawn loop: a mesh-index entry
`(layer_id, tileset_guid, handle)` matches a (layer index, tileset guid)
pair when both components agree. -/
def entryMatches (p : Nat × Nat) (e : Nat × Nat × Nat) : Bool :=
  e.1 == p.1 && e.2.1 == p.2

/-- The spawn loops of the Entity Synchronizer for one instance: for each
(layer, tileset-layer) pair look up the material in the instance's cache
(`unwrap`: a missing entry panics), filter the tick's mesh-index entries
to the matching ones, and spawn one chunk entity per match. -/
def spawnPairs (cache : List (Nat × Nat)) (translation : Vec3)
    (meshList : List (Nat × Nat × Nat)) :
    List (Nat × Nat) → Except String (List ChunkComponents)
  | [] => Except.ok []
  | p :: ps =>
    match lookupAL cache p.2 with
    | none => Except.error "no material for tileset"
    | some mat =>
      let chunk_mesh_list := meshList.filter (entryMatches p)
      match spawnPairs cache translation meshList ps with
      | Except.error e => Except.error e
      | Except.ok ents =>
        Except.ok (chunk_mesh_list.map
          (fun e => { layer_id := p.1, material := mat, mesh := e.2.2,
                      transform := translation }) ++ ents)

/-- One instance of the final query loop: resolve the placement
translation (`center` when the centering flag is set, the origin
translation unchanged otherwise), then run the spawn loops. -/
def syncInstance (centerFlag : Bool) (m : Map) (cache : List (Nat × Nat))
    (origin : Vec3) (meshList : List (Nat × Nat × Nat)) :
    Except String (List ChunkComponents) :=
  match (if centerFlag then m.center origin else Except.ok origin) with
  | Except.error e => Except.error e
  | Except.ok translation => spawnPairs cache translation meshList (mapPairs m)

theorem length_filter_eq_sum {α : Type} (q : α → Bool) (l : List α) :
    (l.filter q).length = (l.map (fun x => if q x then 1 else 0)).sum := by
  induction l with
  | nil => rfl
  | cons x xs ih => by_cases h : q x <;> simp [List.filter_cons, h, ih] <;> omega

theorem sum_map_add_nat {α : Type} (f g : α → Nat) (l : List α) :
    (l.map (fun x => f x + g x)).sum = (l.map f).sum + (l.map g).sum := by
  induction l with
  | nil => rfl
  | cons x xs ih =>
    simp only [List.map_cons, List.sum_cons, ih]
    omega

theorem sum_map_one {α : Type} (l : List α) :
    (l.map (fun _ => 1)).sum = l.length := by
  induction l with
  | nil => rfl
  | cons x xs ih => simp [ih]; omega

/-- Double counting: summing matching-entry counts over the pairs equals
summing matching-pair counts over the entries. -/
theorem sum_filter_lengths (ps : List (Nat × Nat)) (meshList : List (Nat × Nat × Nat)) :
    (ps.map (fun p => (meshList.filter (entryMatches p)).length)).sum
      = (meshList.map (fun e => (ps.filter (fun p => entryMatches p e)).length)).sum := by
  induction meshList with
  | nil => simp
  | cons e rest ih =>
    have step : ∀ p : Nat × Nat,
        ((e :: rest).filter (entryMatches p)).length
          = (if entryMatches p e then 1 else 0)
            + (rest.filter (entryMatches p)).length := by
      intro p
      by_cases h : entryMatches p e <;> simp [List.filter_cons, h] <;> omega
    calc (ps.map (fun p => ((e :: rest).filter (entryMatches p)).length)).sum
        = (ps.map (fun p => (if entryMatches p e then 1 else 0)
            + (rest.filter (entryMatches p)).length)).sum := by
          simp only [step]
      _ = (ps.map (fun p => if entryMatches p e then 1 else 0)).sum
            + (ps.map (fun p => (rest.filter (entryMatches p)).length)).sum :=
          sum_map_add_nat _ _ ps
      _ = (ps.filter (fun p => entryMatches p e)).length
            + (rest.map (fun e2 => (ps.filter (fun p => entryMatches p e2)).length)).sum := by
          rw [← length_filter_eq_sum, ih]
      _ = ((e :: rest).map
            (fun e2 => (ps.filter (fun p => entryMatches p e2)).length)).sum := by
          simp

/-- Success and structure of the spawn loops: one entity per match, all
at the given translation, each carrying the cached material of its pair. -/
theorem spawnPairs_ok (cache : List (Nat × Nat)) (translation : Vec3)
    (meshList : List (Nat × Nat × Nat)) :
    ∀ ps : List (Nat × Nat),
    (∀ p ∈ ps, (lookupAL cache p.2).isSome = true) →
    ∃ ents, spawnPairs cache translation meshList ps = Except.ok ents
      ∧ ents.length
          = (ps.map (fun p => (meshList.filter (entryMatches p)).length)).sum
      ∧ (∀ ent ∈ ents, ent.transform = translation)
      ∧ (∀ ent ∈ ents, ∃ e ∈ meshList, ent.mesh = e.2.2
          ∧ ∃ p ∈ ps, entryMatches p e = true ∧ ent.layer_id = p.1
              ∧ lookupAL cache p.2 = some ent.material) := by
  intro ps
  induction ps with
  | nil =>
    intro _
    exact ⟨[], rfl, rfl, fun ent hent => absurd hent (List.not_mem_nil ent),
           fun ent hent => absurd hent (List.not_mem_nil ent)⟩
  | cons p ps ih =>
    intro hall
    obtain ⟨mat, hmat⟩ := Option.isSome_iff_exists.mp
      (hall p (List.mem_cons_self p ps))
    obtain ⟨ents, hok, hlen, htr, hattr⟩ :=
      ih (fun p2 hp2 => hall p2 (List.mem_cons_of_mem p hp2))
    refine ⟨(meshList.filter (entryMatches p)).map
        (fun e => { layer_id := p.1, material := mat, mesh := e.2.2,
                    transform := translation }) ++ ents, ?_, ?_, ?_, ?_⟩
    · rw [spawnPairs, hmat, hok]
    · simp [hlen]
    · intro ent hent
      rcases List.mem_append.mp hent with hl | hr
      · obtain ⟨e, _, rfl⟩ := List.mem_map.mp hl
        rfl
      · exact htr ent hr
    · intro ent hent
      rcases List.mem_append.mp hent with hl | hr
      · obtain ⟨e, he, rfl⟩ := List.mem_map.mp hl
        refine ⟨e, List.mem_of_mem_filter he, rfl,
                p, List.mem_cons_self p ps, List.of_mem_filter he, rfl, ?_⟩
        exact hmat
      · obtain ⟨e, he, hmesh, p2, hp2, hmatch, hlid, hmat2⟩ := hattr ent hr
        exact ⟨e, he, hmesh, p2, List.mem_cons_of_mem p hp2, hmatch, hlid, hmat2⟩

/-- C5: with the cache populated for the map's tileset-layer pairs and
every mesh-index entry matching exactly one (layer, tileset) pair, the
Entity Synchronizer (centering off) spawns exactly one chunk entity per
mesh-index entry, each attributed to one matching pair, carrying the
material cached for that pair's tileset guid and the unmodified origin
translation. -/
theorem entity_sync_spec (m : Map) (cache : List (Nat × Nat)) (origin : Vec3)
    (meshList : List (Nat × Nat × Nat))
    (H1 : ∀ e ∈ meshList,
        ((mapPairs m).filter (fun p => entryMatches p e)).length = 1)
    (H2 : ∀ p ∈ mapPairs m, (lookupAL cache p.2).isSome = true) :
    ∃ ents, syncInstance false m cache origin meshList = Except.ok ents
      ∧ ents.length = meshList.length
      ∧ (∀ ent ∈ ents, ent.transform = origin)
      ∧ (∀ ent ∈ ents, ∃ e ∈ meshList, ent.mesh = e.2.2
          ∧ ∃ p ∈ mapPairs m, entryMatches p e = true ∧ ent.layer_id = p.1
              ∧ lookupAL cache p.2 = some ent.material) := by
  obtain ⟨ents, hok, hlen, htr, hattr⟩ :=
    spawnPairs_ok cache origin meshList (mapPairs m) H2
  refine ⟨ents, ?_, ?_, htr, hattr⟩
  · rw [syncInstance]
    exact hok
  · rw [hlen, sum_filter_lengths]
    have hone : meshList.map
        (fun e => ((mapPairs m).filter (fun p => entryMatches p e)).length)
        = meshList.map (fun _ => 1) := by
      apply List.map_congr_left
      intro e he
      exact H1 e he
    rw [hone, sum_map_one]

/-- The end-to-end scenario map of the spec: one layer with one
tileset-layer of tileset guid 7. -/
def mapEndToEndEx : Map :=
  { map := { orientation := Orientation.orthogonal, width := 2, height := 2,
             tile_width := 8, tile_height := 8,
             tilesets := [{ first_gid := 7, images := ["a.png"] }] },
    meshes := [],
    layers := [{ tileset_layers := [{ tile_size := ⟨8, 8⟩, chunks := [],
                                      tileset_guid := 7 }] }],
    tile_size := ⟨8, 8⟩, image_folder := "assets" }

/-- Witness for C5: the end-to-end scenario with two mesh-index entries
tagged (0, 7) and a cache holding material 42 for guid 7. -/
theorem entity_sync_spec_witness :
    ∃ ents, syncInstance false mapEndToEndEx [(7, 42)] ⟨1, 2, 3⟩
        [(0, 7, 100), (0, 7, 101)] = Except.ok ents
      ∧ ents.length = [(0, 7, 100), (0, 7, 101)].length
      ∧ (∀ ent ∈ ents, ent.transform = (⟨1, 2, 3⟩ : Vec3))
      ∧ (∀ ent ∈ ents, ∃ e ∈ [(0, 7, 100), (0, 7, 101)], ent.mesh = e.2.2
          ∧ ∃ p ∈ mapPairs mapEndToEndEx, entryMatches p e = true
              ∧ ent.layer_id = p.1
              ∧ lookupAL [(7, 42)] p.2 = some ent.material) :=
  entity_sync_spec mapEndToEndEx [(7, 42)] ⟨1, 2, 3⟩
    [(0, 7, 100), (0, 7, 101)] (by decide) (by decide)

end BevyTiled
